import Mathlib

/-!
Verification development for the Guardian article-analysis pipeline
(`src/api_client/base_client.py`, `src/api_client/errors.py`,
`src/logging_utils.py`, `src/llm_client/{gemini,openai}_client.py`,
`src/core/models.py`, `src/orchestrator/pipeline.py`, `src/config.py`).

The Python code is shallowly embedded: dynamic JSON-like values become the
`PyVal` inductive, Python dicts become association lists with unique keys,
floats become rationals, raised exceptions become `Option`/dedicated error
constructors, and loops become structural or fuel-based recursion.
-/

/-- Model of a Python/JSON dynamic value as produced by `json.loads` and
passed around the clients.  Fractional-literal strings for `float()` and the
`repr` of containers are not needed by any verified statement and are
modelled coarsely (see `pyFloat`, `pyStr`). -/
inductive PyVal where
  | str (s : String)
  | num (q : ℚ)
  | bool (b : Bool)
  | list (xs : List PyVal)
  | dict (kvs : List (String × PyVal))
  | none
deriving Repr

/-- Association-list model of a Python `dict` (unique keys, insertion order). -/
abbrev Params := List (String × PyVal)

/-- Python `dict.get(k, dflt)` on an association list. -/
def lookupD (kvs : List (String × PyVal)) (k : String) (dflt : PyVal) : PyVal :=
  match kvs.find? (fun p => p.1 == k) with
  | some p => p.2
  | Option.none => dflt

/-- Python `d[k] = v` on an association-list dict: overwrite the existing
entry in place, else append a new entry (insertion order preserved). -/
def setKey : Params → String → PyVal → Params
  | [], k, v => [(k, v)]
  | p :: ps, k, v => if p.1 = k then (k, v) :: ps else p :: setKey ps k v

/-- Decimal digit value of a character, `Option.none` for non-digits. -/
def charDigit (c : Char) : Option ℕ :=
  if c.isDigit then some (c.toNat - 48) else Option.none

/-- Parse a non-empty all-digit character list as a natural number. -/
def parsePyIntDigits (cs : List Char) : Option ℕ :=
  if cs.isEmpty then Option.none
  else cs.foldl (fun acc c => acc.bind (fun n => (charDigit c).map (fun d => 10 * n + d))) (some 0)

/-- Python `int(s)` on a string: optional sign followed by decimal digits;
any other shape raises `ValueError` (`Option.none`). -/
def parsePyInt (s : String) : Option ℤ :=
  match s.toList with
  | '-' :: rest => (parsePyIntDigits rest).map (fun n => -(n : ℤ))
  | '+' :: rest => (parsePyIntDigits rest).map (fun n => (n : ℤ))
  | cs => (parsePyIntDigits cs).map (fun n => (n : ℤ))

/-- ASCII lowercasing of a character (Python `str.lower` on the key names
that occur here). -/
def lowerChar (c : Char) : Char :=
  if 'A' ≤ c ∧ c ≤ 'Z' then Char.ofNat (c.toNat + 32) else c

/-- ASCII lowercasing of a string. -/
def lowerString (s : String) : String :=
  String.mk (s.toList.map lowerChar)

/-- Python `float(x)`: numbers and booleans convert, other values raise
(`Option.none`).  Strings holding an integer literal convert; fractional
string literals are outside the modelled fragment. -/
def pyFloat : PyVal → Option ℚ
  | .num q => some q
  | .bool b => some (if b then 1 else 0)
  | .str s => (parsePyInt s).map (fun z => (z : ℚ))
  | _ => Option.none

/-- Python `str(x)` for the values the parser can meet.  Container reprs
are not needed by any verified statement. -/
def pyStr : PyVal → String
  | .str s => s
  | .num q => if q.den = 1 then toString q.num else toString q
  | .bool b => if b then "True" else "False"
  | .list _ => "<list>"
  | .dict _ => "<dict>"
  | .none => "None"

/-- Python truthiness of a value. -/
def pyTruthy : PyVal → Bool
  | .str s => !(s == "")
  | .num q => decide (q ≠ 0)
  | .bool b => b
  | .list xs => !xs.isEmpty
  | .dict kvs => !kvs.isEmpty
  | .none => false

/-- Python `x or dflt`. -/
def pyOrElse (v dflt : PyVal) : PyVal := if pyTruthy v then v else dflt

/-- Python iteration `for x in v`: lists yield elements, strings yield
one-character strings, dicts yield their keys; other values raise. -/
def pyIter : PyVal → Option (List PyVal)
  | .list xs => some xs
  | .str s => some (s.toList.map (fun c => PyVal.str c.toString))
  | .dict kvs => some (kvs.map (fun p => PyVal.str p.1))
  | _ => Option.none

/-! ## `src/api_client/errors.py` and `src/api_client/base_client.py` -/

/-- The exception classes of `src/api_client/errors.py`, each carrying the
message string it was constructed with. -/
inductive APIError where
  | timeoutError (msg : String)
  | connectionError (msg : String)
  | authError (msg : String)
  | clientError (msg : String)
  | serverError (msg : String)
deriving Repr, DecidableEq

/-- Python class name of a raised `APIError`, mirroring the class
declarations in `src/api_client/errors.py`. -/
def exceptionClass : APIError → String
  | .timeoutError _ => "APITimeoutError"
  | .connectionError _ => "APIConnectionError"
  | .authError _ => "APIAuthError"
  | .clientError _ => "APIClientError"
  | .serverError _ => "APIServerError"

/-- Retry configuration of `BaseClient._request` (base_client.py lines 80-82). -/
def requestMaxRetries : ℕ := 4

/-- `base_backoff = 1.0` in `BaseClient._request`. -/
def requestBaseBackoff : ℚ := 1

/-- `max_backoff = 30.0` in `BaseClient._request`. -/
def requestMaxBackoff : ℚ := 30

/-- The pre-jitter sleep of `BaseClient._backoff_sleep_jitter`:
`min(max_backoff, retry_after)` when the server supplied a delay, else
`min(max_backoff, base_backoff * 2 ** (attempt - 1))`. -/
def backoffSleepTime (attempt : ℕ) (maxBackoff baseBackoff : ℚ) (retryAfter : Option ℚ) : ℚ :=
  match retryAfter with
  | some ra => min maxBackoff ra
  | Option.none => min maxBackoff (baseBackoff * 2 ^ (attempt - 1))

/-- The single sleep performed INSIDE `BaseClient._backoff_sleep_jitter`
(base_client.py line 43) for a given value `jitter` of
`random.uniform(0, sleep_time * 0.5)`; the helper also returns this amount.
This is not always the total delay before the next attempt: `_request`
sleeps a second time on two of its three retry paths, see
`totalSleptBeforeNextAttempt`. -/
def backoffSleepJitter (attempt : ℕ) (maxBackoff baseBackoff : ℚ) (retryAfter : Option ℚ)
    (jitter : ℚ) : ℚ :=
  backoffSleepTime attempt maxBackoff baseBackoff retryAfter + jitter

/-- The three retry paths of `_request` on a non-final attempt: the
`requests.Timeout` branch, the `requests.RequestException` branch, and the
429/5xx status branch. -/
inductive RetryPath where
  | timeoutPath
  | netErrorPath
  | statusPath

/-- The total time `_request` actually sleeps before starting the next
attempt.  `_backoff_sleep_jitter` itself sleeps (line 43) and returns the
slept amount; the timeout branch keeps its extra `time.sleep` commented out
(line 96) and so sleeps once, but the network-error branch (line 104) and
the 429/5xx branch (line 141) call `time.sleep` again on the returned
amount, doubling the delay on those two paths.  Only the status branch can
carry a `Retry-After` value (the exception branches have no response). -/
def totalSleptBeforeNextAttempt (path : RetryPath) (attempt : ℕ)
    (retryAfter : Option ℚ) (jitter : ℚ) : ℚ :=
  match path with
  | .timeoutPath =>
    backoffSleepJitter attempt requestMaxBackoff requestBaseBackoff Option.none jitter
  | .netErrorPath =>
    2 * backoffSleepJitter attempt requestMaxBackoff requestBaseBackoff Option.none jitter
  | .statusPath =>
    2 * backoffSleepJitter attempt requestMaxBackoff requestBaseBackoff retryAfter jitter

/-- `Retry-After` handling in `BaseClient._request` lines 124-130:
`headers.get` gives `Option.none` when absent; a falsy (empty) string is
ignored; otherwise `int(ra)`, with `ValueError` mapped back to `None`. -/
def parseRetryAfterHeader (h : Option String) : Option ℤ :=
  match h with
  | Option.none => Option.none
  | some s => if s = "" then Option.none else parsePyInt s

/-- Outcome of one `self.session.request(...)` call inside the attempt loop
of `BaseClient._request`: a `requests.Timeout`, another
`requests.RequestException` (network error), or an HTTP response with a
status code and an optional `Retry-After` header. -/
inductive AttemptOutcome where
  | timeout (emsg : String)
  | netError (emsg : String)
  | response (status : ℕ) (retryAfterHeader : Option String)

/-- Result of `BaseClient._request`: a returned 200 response, a raised
`APIError`, or the fall-through case in which the `for` loop finishes every
attempt without returning or raising and the function implicitly returns
`None`. -/
inductive RequestResult where
  | success (status : ℕ)
  | raised (e : APIError)
  | fellThrough
deriving Repr, DecidableEq

/-- The attempt loop of `BaseClient._request` (base_client.py lines 84-142)
over the list of remaining attempt outcomes; an empty tail means the current
attempt is the last one (`attempt == max_retries`). -/
def requestLoop (url : String) : List AttemptOutcome → RequestResult
  | [] => .fellThrough
  | o :: rest =>
    match o with
    | .timeout emsg =>
      if rest.isEmpty then .raised (.timeoutError ("Request timeout error " ++ emsg))
      else requestLoop url rest
    | .netError emsg =>
      if rest.isEmpty then
        .raised (.connectionError ("Network error while calling " ++ url ++ ": " ++ emsg))
      else requestLoop url rest
    | .response status _ra =>
      if status = 200 then .success status
      else if status = 401 ∨ status = 403 then
        .raised (.authError ("Authentication error: " ++ toString status))
      else if 400 ≤ status ∧ status < 500 ∧ status ≠ 429 then
        .raised (.clientError ("Client error: " ++ toString status))
      else if status = 429 ∨ (500 ≤ status ∧ status < 600) then
        if rest.isEmpty then
          if status = 429 then .raised (.clientError ("Rate limit exceeded: " ++ toString status))
          else .raised (.serverError ("Server error: " ++ toString status))
        else requestLoop url rest
      else requestLoop url rest

/-- `BaseClient._request` as a function of the outcome of each attempt
(attempt numbers run from 1 to `max_retries`). -/
def request (url : String) (outcomes : ℕ → AttemptOutcome) : RequestResult :=
  requestLoop url ((List.range' 1 requestMaxRetries).map outcomes)

/-- Does an outcome let a NON-final attempt of the loop proceed to the next
attempt rather than return or raise?  True for timeouts, network errors,
429, 5xx — and also for the unhandled statuses that fall through every
branch (e.g. 3xx). -/
def continuesLoop : AttemptOutcome → Bool
  | .timeout _ => true
  | .netError _ => true
  | .response status _ =>
    decide (¬status = 200 ∧ ¬(status = 401 ∨ status = 403)
      ∧ ¬(400 ≤ status ∧ status < 500 ∧ status ≠ 429))

/-- What `_request` does with the outcome of its LAST attempt
(`attempt == max_retries`): exactly the loop body with an empty tail. -/
def lastAttemptResult (u : String) (o : AttemptOutcome) : RequestResult :=
  requestLoop u [o]

/-- A mixed attempt-outcome sequence: a timeout, then a connection error,
then a 500, and finally a 429 on the last attempt. -/
def mixedOutcomes : ℕ → AttemptOutcome := fun i =>
  if i = 1 then .timeout "t"
  else if i = 2 then .netError "reset"
  else if i = 3 then .response 500 Option.none
  else .response 429 Option.none

/-- The secret parameter names redacted by `BaseClient._request`
(base_client.py line 72). -/
def requestSecretKeys : List String := ["api-key", "api_key", "key", "access_token", "token"]

/-- The `safe_params` redacted copy built by `BaseClient._request` lines
71-74: every entry whose key is one of `requestSecretKeys` has its value
replaced by the string `"<REDACTED>"`; all other entries are kept as is. -/
def redactParams (ps : Params) : Params :=
  ps.map (fun p => if p.1 ∈ requestSecretKeys then (p.1, PyVal.str "<REDACTED>") else p)

/-- `_REDACT_KEYS` of `src/logging_utils.py` line 15. -/
def REDACT_KEYS : List String := ["key", "token", "secret", "password", "api"]

/-- `_should_redact` of `src/logging_utils.py`: does the lower-cased key
contain one of the `REDACT_KEYS` patterns as a substring. -/
def shouldRedact (k : String) : Bool :=
  REDACT_KEYS.any (fun p => decide (p.toList <:+: (lowerString k).toList))

/-! ## `BaseClient.get_all_articles` (base_client.py lines 144-170) -/

/-- The envelope fields read from one parsed response body `data`:
the `response` sub-dict (default: empty dict) and, from it, `results`
(default empty list), `currentPage` and `pages` (default 0), each read with
`.get` as in base_client.py lines 163-166.
`Option.none` collapses the Python dynamic-type exceptions of the
surrounding code (`.get` on a non-dict, a non-list `results` value fed to
`extend`, a non-numeric page counter fed to `>=`) into the raised-exception
outcome; the verified statements only exercise well-formed envelopes. -/
def envParts (data : PyVal) : Option (List PyVal × ℚ × ℚ) :=
  match data with
  | .dict kvs =>
    match lookupD kvs "response" (.dict []) with
    | .dict rkvs =>
      match lookupD rkvs "results" (.list []), lookupD rkvs "currentPage" (.num 0),
          lookupD rkvs "pages" (.num 0) with
      | .list rs, .num cp, .num pg => some (rs, cp, pg)
      | _, _, _ => Option.none
    | _ => Option.none
  | _ => Option.none

/-- Does the envelope of `data` satisfy the loop exit test
`currentPage >= pages`? -/
def stopsAt (data : PyVal) : Bool :=
  match envParts data with
  | some (_, cp, pg) => decide (pg ≤ cp)
  | Option.none => false

/-- Result of the `get_all_articles` `while True` loop: the returned results
list together with the final state of the caller-owned `params` dict, a
raised exception (also leaving `params` behind), or fuel exhaustion —
`outOfFuel` for every fuel value is how this embedding renders an infinite
loop. -/
inductive LoopResult where
  | done (results : List PyVal) (finalParams : Params)
  | failed (finalParams : Params)
  | outOfFuel
deriving Repr

/-- The loop of `BaseClient.get_all_articles`: `respOf page` is the parsed
body (`response.json()`) of the successful `_request` for that page.  Each
iteration first assigns the current page number to the `page` key of the
caller-owned dict,
then fetches, appends the page results to the accumulator (`None` before the
first page), and exits only when `currentPage >= pages`. -/
def getAllArticlesLoop (respOf : ℕ → PyVal) :
    ℕ → ℕ → Params → Option (List PyVal) → LoopResult
  | 0, _, _, _ => .outOfFuel
  | fuel + 1, page, params, acc =>
    let params' := setKey params "page" (.num page)
    match envParts (respOf page) with
    | Option.none => .failed params'
    | some (rs, cp, pg) =>
      let acc' := match acc with
        | Option.none => rs
        | some old => old ++ rs
      if pg ≤ cp then .done acc' params'
      else getAllArticlesLoop respOf fuel (page + 1) params' (some acc')

/-- `BaseClient.get_all_articles(params)`, starting at page 1 with an empty
accumulator, run with the given amount of fuel. -/
def getAllArticles (respOf : ℕ → PyVal) (params : Params) (fuel : ℕ) : LoopResult :=
  getAllArticlesLoop respOf fuel 1 params Option.none

/-- Final state of the caller-owned `params` dict after the call, when the
loop finished (by return or by exception). -/
def finalParamsOf : LoopResult → Option Params
  | .done _ fp => some fp
  | .failed fp => some fp
  | .outOfFuel => Option.none

/-! ## `src/core/models.py` -/

/-- The `Article` dataclass. -/
structure Article where
  id : String
  title : String
  body : String
  sectionName : Option String
  publication : Option String
  url : String
  raw : List (String × PyVal)

/-- The `Entity` dataclass (`salience` is a float, embedded as ℚ). -/
structure Entity where
  text : String
  type : String
  salience : ℚ
deriving Repr, DecidableEq

/-- The `ArticleAnalysis` dataclass. -/
structure ArticleAnalysis where
  article_id : String
  sentiment : ℚ
  summary : String
  key_entities : List Entity
  topics : List String
  confidence : ℚ
  raw_llm_response : PyVal

/-- The failure-context dict built by `analyze_articles` (pipeline.py lines
109-117).  The Python code uses `getattr(a, "id", None)` etc.; on an
`Article` dataclass those attributes always exist, so the fields are the
article fields themselves. -/
structure FailureRecord where
  article_id : String
  title : String
  url : String
  attempts : ℕ
  error : String

/-! ## `_parse_response` of `src/llm_client/gemini_client.py` lines 74-106
(and, token for token, `src/llm_client/openai_client.py` lines 70-102) -/

/-- One iteration of the entity loop: `Entity(text=str(e.get("text", "")),
type=str(e.get("type", "UNKNOWN")), salience=float(e.get("salience", 0.0)))`
inside `try/except` — any exception (attribute access on a non-dict, an
unconvertible `salience`) skips the entity. -/
def parseEntity (e : PyVal) : Option Entity :=
  match e with
  | .dict kvs =>
    match pyFloat (lookupD kvs "salience" (.num 0)) with
    | some sal =>
      some { text := pyStr (lookupD kvs "text" (.str ""))
             type := pyStr (lookupD kvs "type" (.str "UNKNOWN"))
             salience := sal }
    | Option.none => Option.none
  | _ => Option.none

/-- `_parse_response(article_id, data)`: defensive parsing with defaults;
`Option.none` is an uncaught exception propagating to the caller. -/
def parseResponse (article_id : String) (data : List (String × PyVal)) :
    Option ArticleAnalysis := do
  let sentiment ← pyFloat (lookupD data "sentiment" (.num 0))
  let summary := (pyStr (lookupD data "summary" (.str ""))).trim
  let topicsList ← pyIter (pyOrElse (lookupD data "topics" .none) (.list []))
  let topics := topicsList.map pyStr
  let entitiesList ← pyIter (pyOrElse (lookupD data "key_entities" .none) (.list []))
  let entities := entitiesList.filterMap parseEntity
  let confidence ← pyFloat (lookupD data "confidence" (.num 0))
  some { article_id := article_id
         sentiment := sentiment
         summary := summary
         key_entities := entities
         topics := topics
         confidence := confidence
         raw_llm_response := .dict data }

/-! ## `analyze_articles` of `src/orchestrator/pipeline.py` lines 76-133 -/

/-- The inner retry loop of `analyze_articles` for one article, over the
remaining attempt numbers (`range(1, max_retries + 1)`): the call of
`llm_client.analyze_article` at attempt `k` is `call k`, `Except.error`
standing for a raised exception.  A success breaks out; a failure on the
last attempt surfaces the error; with no attempts at all the loop body
never runs and the article gets no outcome (`Option.none`). -/
def runAttempts (call : ℕ → Except String ArticleAnalysis) :
    List ℕ → Option (Except String ArticleAnalysis)
  | [] => Option.none
  | [k] => some (call k)
  | k :: k2 :: rest =>
    match call k with
    | .ok x => some (.ok x)
    | .error _ => runAttempts call (k2 :: rest)

/-- `analyze_articles(articles, llm_client, max_retries, ...)`: sequentially
analyze each article with up to `maxRetries` attempts, collecting successes
and failure records in input order.  `llm a k` is the outcome of calling
`llm_client.analyze_article(a)` on attempt `k`. -/
def analyzeArticles (llm : Article → ℕ → Except String ArticleAnalysis) (maxRetries : ℕ) :
    List Article → List ArticleAnalysis × List FailureRecord
  | [] => ([], [])
  | a :: rest =>
    let tail := analyzeArticles llm maxRetries rest
    match runAttempts (llm a) (List.range' 1 maxRetries) with
    | Option.none => tail
    | some (.ok x) => (x :: tail.1, tail.2)
    | some (.error e) =>
      (tail.1,
       { article_id := a.id, title := a.title, url := a.url,
         attempts := maxRetries, error := e } :: tail.2)

/-! ## `run_pipeline_for_date` slice computation (pipeline.py lines 192-194)
and `DEFAULT_ANALYZE_LIMIT` (config.py line 14) -/

/-- `DEFAULT_ANALYZE_LIMIT: int = 2` from `src/config.py`. -/
def DEFAULT_ANALYZE_LIMIT : ℤ := 2

/-- `effective_limit = DEFAULT_ANALYZE_LIMIT if analyze_limit is None else
analyze_limit`. -/
def effectiveLimitOf (analyzeLimit : Option ℤ) : ℤ :=
  analyzeLimit.getD DEFAULT_ANALYZE_LIMIT

/-- `limit = max(1, min(len(articles), effective_limit))`. -/
def sliceLimit (nArticles : ℕ) (analyzeLimit : Option ℤ) : ℤ :=
  max 1 (min (nArticles : ℤ) (effectiveLimitOf analyzeLimit))

/-- The slice `articles[:limit]` passed to `analyze_articles` by
`run_pipeline_for_date` (the limit is always ≥ 1, so the Python slice is a
plain prefix). -/
def articlesToAnalyze (articles : List Article) (analyzeLimit : Option ℤ) : List Article :=
  articles.take (sliceLimit articles.length analyzeLimit).toNat

/-! ## Concrete inputs used in counterexamples and witnesses -/

/-- `GeminiLLMClient.analyze_article` (and identically
`OpenAILLMClient.analyze_article`) as seen from `analyze_articles`:
`_call_llm` returns some raw JSON dict per attempt (`Except.error` being a
raised transport/quota exception), and `_parse_response(article.id, raw)`
turns it into the analysis. -/
def analyzeArticleWith (llmRaw : Article → ℕ → Except String (List (String × PyVal)))
    (a : Article) (k : ℕ) : Except String ArticleAnalysis :=
  match llmRaw a k with
  | .error e => .error e
  | .ok data =>
    match parseResponse a.id data with
    | some r => .ok r
    | Option.none => .error "parse exception"

/-- A response envelope whose single page is also the last
(`currentPage = pages = 1`). -/
def onePageResp : ℕ → PyVal := fun _ =>
  .dict [("response", .dict [("currentPage", .num 1), ("pages", .num 1),
    ("results", .list [.str "r1"])])]

/-- A malformed response envelope that always reports
`currentPage = 0 < 1 = pages` while returning an empty results list. -/
def emptyStuckResp : ℕ → PyVal := fun _ =>
  .dict [("response", .dict [("currentPage", .num 0), ("pages", .num 1),
    ("results", .list [])])]

/-- A backend response missing `confidence`, whose `key_entities` holds one
well-formed entity and one entity object missing its `text` field. -/
def malformedEntityResponse : List (String × PyVal) :=
  [("sentiment", .num 1), ("summary", .str "ok"),
   ("topics", .list [.str "t"]),
   ("key_entities", .list
     [.dict [("text", .str "Alice"), ("type", .str "PERSON"), ("salience", .num 1)],
      .dict [("type", .str "ORG"), ("salience", .num 1)]])]

/-- A minimal test article. -/
def mkArticle (i : String) : Article :=
  { id := i, title := "title " ++ i, body := "", sectionName := Option.none,
    publication := Option.none, url := "https://example.org/" ++ i, raw := [] }

/-- A stub analysis carrying a given article id. -/
def stubAnalysis (i : String) : ArticleAnalysis :=
  { article_id := i, sentiment := 0, summary := "", key_entities := [],
    topics := [], confidence := 1, raw_llm_response := .dict [] }

/-- A stub LLM client behaviour: every attempt on the article with id `"a2"`
raises; every other article succeeds immediately. -/
def stubLLM : Article → ℕ → Except String ArticleAnalysis := fun a _ =>
  if a.id = "a2" then Except.error "boom" else Except.ok (stubAnalysis a.id)

/-- A two-article input list whose second article always fails analysis
under `stubLLM`. -/
def demoArticles : List Article := [mkArticle "a1", mkArticle "a2"]

/-! # Theorems -/

/-- The single sleep performed inside `_backoff_sleep_jitter` for a retried
attempt `k` of `BaseClient._request` (`1 ≤ k < max_retries = 4`) with no
Retry-After header and any jitter in `[0, sleep*0.5]` satisfies the
intended bounds: at least `base_backoff * 2^(k-1)`, at most
`base_backoff * 2^(k-1) * 1.5`, and at most `max_backoff * 1.5`.  The total
delay of `_request` itself is larger on two retry paths, see
`backoff_double_sleep_exceeds_bound`. -/
theorem backoff_attempt_bounds (k : ℕ) (j : ℚ)
    (hk1 : 1 ≤ k) (hk : k < requestMaxRetries)
    (hj0 : 0 ≤ j)
    (hj : j ≤ backoffSleepTime k requestMaxBackoff requestBaseBackoff Option.none * (1/2)) :
    requestBaseBackoff * 2 ^ (k - 1)
        ≤ backoffSleepJitter k requestMaxBackoff requestBaseBackoff Option.none j ∧
    backoffSleepJitter k requestMaxBackoff requestBaseBackoff Option.none j
        ≤ requestBaseBackoff * 2 ^ (k - 1) * (3/2) ∧
    backoffSleepJitter k requestMaxBackoff requestBaseBackoff Option.none j
        ≤ requestMaxBackoff * (3/2) := by
  have hk3 : k ≤ 3 := by
    have := hk
    simp only [requestMaxRetries] at this
    omega
  simp only [backoffSleepJitter, backoffSleepTime, requestBaseBackoff,
    requestMaxBackoff] at hj ⊢
  interval_cases k <;> norm_num at hj ⊢ <;>
    exact ⟨by linarith, by linarith, by linarith⟩

/-- Witness for `backoff_attempt_bounds` at attempt 2 with jitter 1. -/
theorem backoff_attempt_bounds_witness :
    requestBaseBackoff * 2 ^ (2 - 1)
        ≤ backoffSleepJitter 2 requestMaxBackoff requestBaseBackoff Option.none 1 ∧
    backoffSleepJitter 2 requestMaxBackoff requestBaseBackoff Option.none 1
        ≤ requestBaseBackoff * 2 ^ (2 - 1) * (3/2) ∧
    backoffSleepJitter 2 requestMaxBackoff requestBaseBackoff Option.none 1
        ≤ requestMaxBackoff * (3/2) :=
  backoff_attempt_bounds 2 1 (by norm_num) (by norm_num [requestMaxRetries]) (by norm_num)
    (by norm_num [backoffSleepTime, requestMaxBackoff, requestBaseBackoff])

/-- A `Retry-After: 5` header makes `_backoff_sleep_jitter` sleep
`min(max_backoff, 5) = 5` plus jitter — a single sleep in `[5, 7.5]` for
every attempt number `k`, with the pre-jitter sleep capped by
`max_backoff`.  The total delay of `_request` on the 429/5xx path is twice
this, see `retry_after_double_sleep_out_of_window`. -/
theorem retry_after_overrides (k : ℕ) (j : ℚ) (hj0 : 0 ≤ j)
    (hj : j ≤ backoffSleepTime k requestMaxBackoff requestBaseBackoff
        ((parseRetryAfterHeader (some "5")).map (fun z => (z : ℚ))) * (1/2)) :
    backoffSleepTime k requestMaxBackoff requestBaseBackoff
        ((parseRetryAfterHeader (some "5")).map (fun z => (z : ℚ))) = 5 ∧
    5 ≤ backoffSleepJitter k requestMaxBackoff requestBaseBackoff
        ((parseRetryAfterHeader (some "5")).map (fun z => (z : ℚ))) j ∧
    backoffSleepJitter k requestMaxBackoff requestBaseBackoff
        ((parseRetryAfterHeader (some "5")).map (fun z => (z : ℚ))) j ≤ 15/2 ∧
    backoffSleepTime k requestMaxBackoff requestBaseBackoff
        ((parseRetryAfterHeader (some "5")).map (fun z => (z : ℚ)))
      ≤ requestMaxBackoff := by
  have hmin : backoffSleepTime k requestMaxBackoff requestBaseBackoff
      ((parseRetryAfterHeader (some "5")).map (fun z => (z : ℚ))) = 5 := rfl
  rw [hmin] at hj
  refine ⟨hmin, ?_, ?_, ?_⟩
  · simp only [backoffSleepJitter, hmin]
    linarith
  · simp only [backoffSleepJitter, hmin]
    linarith
  · rw [hmin]
    norm_num [requestMaxBackoff]

/-- Witness for `retry_after_overrides` at attempt 4 with jitter 2. -/
theorem retry_after_overrides_witness :
    backoffSleepTime 4 requestMaxBackoff requestBaseBackoff
        ((parseRetryAfterHeader (some "5")).map (fun z => (z : ℚ))) = 5 ∧
    5 ≤ backoffSleepJitter 4 requestMaxBackoff requestBaseBackoff
        ((parseRetryAfterHeader (some "5")).map (fun z => (z : ℚ))) 2 ∧
    backoffSleepJitter 4 requestMaxBackoff requestBaseBackoff
        ((parseRetryAfterHeader (some "5")).map (fun z => (z : ℚ))) 2 ≤ 15/2 ∧
    backoffSleepTime 4 requestMaxBackoff requestBaseBackoff
        ((parseRetryAfterHeader (some "5")).map (fun z => (z : ℚ)))
      ≤ requestMaxBackoff :=
  retry_after_overrides 4 2 (by norm_num)
    (by rw [show backoffSleepTime 4 requestMaxBackoff requestBaseBackoff
        ((parseRetryAfterHeader (some "5")).map (fun z => (z : ℚ))) = 5 from rfl]
        norm_num)

/-- C2: the claimed backoff bound is the clear intent (it is what the
helper sleeps and what the debug log reports), but `_request` sleeps a
second time on the network-error and 429/5xx retry paths — the helper
sleeps at line 43 and `_request` calls `time.sleep` on the returned amount
again at lines 104 and 141 (the timeout branch keeps this duplicate
commented out at line 96).  At attempt 1 with zero jitter those two paths
therefore delay 2 seconds, exceeding the claimed bound
`base_backoff * 2^(1-1) * 1.5 = 1.5`, while the timeout path sleeps the
claimed single amount. -/
theorem backoff_double_sleep_exceeds_bound :
    totalSleptBeforeNextAttempt .netErrorPath 1 Option.none 0 = 2 ∧
    totalSleptBeforeNextAttempt .statusPath 1 Option.none 0 = 2 ∧
    ¬ totalSleptBeforeNextAttempt .netErrorPath 1 Option.none 0
        ≤ requestBaseBackoff * 2 ^ (1 - 1) * (3/2) ∧
    totalSleptBeforeNextAttempt .timeoutPath 1 Option.none 0
      = requestBaseBackoff * 2 ^ (1 - 1) := by
  norm_num [totalSleptBeforeNextAttempt, backoffSleepJitter, backoffSleepTime,
    requestBaseBackoff, requestMaxBackoff]

/-- C3: with `Retry-After: 5` on a 429 at a non-final attempt the helper
sleeps `5 + jitter` (the intended, logged delay) and line 141 then sleeps
the same amount again, so the delay before the next attempt is
`2 * (5 + jitter)` — 10 at zero jitter, 15 at maximal jitter — outside the
claimed `[5, 7.5]` window. -/
theorem retry_after_double_sleep_out_of_window :
    totalSleptBeforeNextAttempt .statusPath 2
        ((parseRetryAfterHeader (some "5")).map (fun z => (z : ℚ))) 0 = 10 ∧
    totalSleptBeforeNextAttempt .statusPath 2
        ((parseRetryAfterHeader (some "5")).map (fun z => (z : ℚ))) (5/2) = 15 ∧
    ¬ totalSleptBeforeNextAttempt .statusPath 2
        ((parseRetryAfterHeader (some "5")).map (fun z => (z : ℚ))) 0 ≤ 15/2 := by
  have hmin : backoffSleepTime 2 requestMaxBackoff requestBaseBackoff
      ((parseRetryAfterHeader (some "5")).map (fun z => (z : ℚ))) = 5 := rfl
  simp only [totalSleptBeforeNextAttempt, backoffSleepJitter, hmin]
  norm_num

/-- C4 counterexample: exhausting all four attempts on 429 responses raises
`APIClientError` — the same exception class that a non-retryable 400
response raises immediately — so the rate-limit condition is not a distinct
error kind, only a different message. -/
theorem rate_limit_not_distinct_class :
    request "https://content.guardianapis.com/search" (fun _ => .response 429 Option.none)
      = .raised (.clientError "Rate limit exceeded: 429") ∧
    request "https://content.guardianapis.com/search" (fun _ => .response 400 Option.none)
      = .raised (.clientError "Client error: 400") ∧
    exceptionClass (.clientError "Rate limit exceeded: 429")
      = exceptionClass (.clientError "Client error: 400") :=
  ⟨rfl, rfl, rfl⟩

/-- An attempt whose outcome lets the loop continue, followed by at least
one further attempt, hands control to the remaining attempts unchanged. -/
theorem requestLoop_cons_of_continues (u : String) (o : AttemptOutcome)
    (rest : List AttemptOutcome) (hne : rest ≠ []) (hc : continuesLoop o = true) :
    requestLoop u (o :: rest) = requestLoop u rest := by
  have hemp : rest.isEmpty = false := by
    cases rest with
    | nil => exact absurd rfl hne
    | cons a l => rfl
  cases o with
  | timeout emsg =>
    rw [requestLoop]
    simp [hemp]
  | netError emsg =>
    rw [requestLoop]
    simp [hemp]
  | response status ra =>
    simp only [continuesLoop, decide_eq_true_eq] at hc
    obtain ⟨h200, hauth, h4xx⟩ := hc
    simp only [requestLoop]
    rw [if_neg h200, if_neg hauth, if_neg h4xx]
    by_cases h429 : status = 429 ∨ (500 ≤ status ∧ status < 600)
    · rw [if_pos h429]
      simp [hemp]
    · rw [if_neg h429]

/-- C4 amended: whenever every non-final attempt lets the loop continue,
the result of `_request` is determined by the outcome of the LAST attempt
alone, and reflects that cause: `APITimeoutError` for a timeout,
`APIConnectionError` for a network error, `APIServerError` for 5xx; those
three classes are pairwise distinct and distinct from `APIClientError`,
while a 429 on the last attempt raises `APIClientError` (the class shared
with non-retryable 4xx) whose message `Rate limit exceeded: 429` still
differs from the 4xx `Client error` message. -/
theorem exhaustion_reflects_last_cause (u : String) (outcomes : ℕ → AttemptOutcome)
    (hcont : ∀ i, 1 ≤ i → i < requestMaxRetries → continuesLoop (outcomes i) = true) :
    request u outcomes = lastAttemptResult u (outcomes requestMaxRetries) ∧
    (∀ emsg, lastAttemptResult u (.timeout emsg)
      = .raised (.timeoutError ("Request timeout error " ++ emsg))) ∧
    (∀ emsg, lastAttemptResult u (.netError emsg)
      = .raised (.connectionError ("Network error while calling " ++ u ++ ": " ++ emsg))) ∧
    (∀ ra, lastAttemptResult u (.response 429 ra)
      = .raised (.clientError "Rate limit exceeded: 429")) ∧
    (∀ ra, lastAttemptResult u (.response 503 ra)
      = .raised (.serverError "Server error: 503")) ∧
    [exceptionClass (.timeoutError "m"), exceptionClass (.connectionError "m"),
     exceptionClass (.serverError "m"), exceptionClass (.clientError "m")].Nodup ∧
    ("Rate limit exceeded: 429" : String) ≠ "Client error: 400" := by
  refine ⟨?_, fun emsg => rfl, fun emsg => rfl, fun ra => rfl, fun ra => rfl,
    by decide, by decide⟩
  have hlist : (List.range' 1 requestMaxRetries).map outcomes
      = [outcomes 1, outcomes 2, outcomes 3, outcomes 4] := rfl
  rw [request, hlist]
  rw [requestLoop_cons_of_continues u _ _ (by simp)
    (hcont 1 (by norm_num) (by norm_num [requestMaxRetries]))]
  rw [requestLoop_cons_of_continues u _ _ (by simp)
    (hcont 2 (by norm_num) (by norm_num [requestMaxRetries]))]
  rw [requestLoop_cons_of_continues u _ _ (by simp)
    (hcont 3 (by norm_num) (by norm_num [requestMaxRetries]))]
  rfl

/-- C5 counterexample: the redacted `safe_params` copy built by
`BaseClient._request` leaves a parameter named `password` untouched, so its
original value does appear in the logged representation, even though the
`_should_redact` predicate of `logging_utils` would match it. -/
theorem password_not_redacted :
    redactParams [("password", .str "hunter2")] = [("password", .str "hunter2")] ∧
    ("password" ∈ requestSecretKeys) = False ∧
    shouldRedact "password" = true :=
  ⟨rfl, by simp [requestSecretKeys], rfl⟩

/-- C5 amended: `_request` redacts exactly the parameters named `api-key`,
`api_key`, `key`, `access_token`, `token` (their values always become
`<REDACTED>`), keeps every other parameter untouched, while the separate
`safe_repr`/`_should_redact` helper (used by the `trace` decorator, not by
`_request`) matches any key containing `key`, `token`, `secret`,
`password`, or `api`. -/
theorem redaction_exact_keys :
    (∀ (ps : Params) (k : String) (v : PyVal),
      (k, v) ∈ redactParams ps → k ∈ requestSecretKeys → v = PyVal.str "<REDACTED>") ∧
    (∀ (ps : Params) (k : String) (v : PyVal),
      (k, v) ∈ ps → k ∉ requestSecretKeys → (k, v) ∈ redactParams ps) ∧
    shouldRedact "password" = true ∧ shouldRedact "secret" = true ∧
    shouldRedact "api-key" = true ∧ shouldRedact "token" = true ∧
    shouldRedact "page" = false := by
  refine ⟨?_, ?_, rfl, rfl, rfl, rfl, rfl⟩
  · intro ps k v hmem hk
    rw [redactParams, List.mem_map] at hmem
    obtain ⟨p, hp, heq⟩ := hmem
    by_cases hp1 : p.1 ∈ requestSecretKeys
    · rw [if_pos hp1] at heq
      exact (Prod.mk.injEq _ _ _ _ ▸ heq).2.symm
    · rw [if_neg hp1] at heq
      exact absurd (heq ▸ hp1) (fun h => h hk)
  · intro ps k v hmem hk
    rw [redactParams, List.mem_map]
    exact ⟨(k, v), hmem, by simp [hk]⟩

/-- Witness for `redaction_exact_keys`: a `password` parameter passes
through the `_request` redaction with its value intact. -/
theorem redaction_exact_keys_witness :
    ("password", PyVal.str "hunter2") ∈ redactParams [("password", PyVal.str "hunter2")] :=
  redaction_exact_keys.2.1 [("password", PyVal.str "hunter2")] "password"
    (PyVal.str "hunter2") (List.mem_singleton.mpr rfl) (by simp [requestSecretKeys])

/-- C9: a response status outside the handled set — here a 302 redirect on
every attempt — makes the attempt loop of `_request` fall through every
branch and every attempt, so the function neither returns a response nor
raises a typed error: it implicitly returns `None`, which
`get_all_articles` then dereferences. -/
theorem redirect_status_falls_through :
    request "https://content.guardianapis.com/search" (fun _ => .response 302 Option.none)
      = .fellThrough ∧
    (∀ s, (RequestResult.fellThrough = RequestResult.success s) = False) ∧
    (∀ e, (RequestResult.fellThrough = RequestResult.raised e) = False) :=
  ⟨rfl, fun s => by simp, fun e => by simp⟩

/-- C10: `run_pipeline_for_date` computes `limit = max(1, min(len(articles),
effective_limit))`, so for a non-empty fetched list the analyzed slice is
never empty, and a zero or negative analyze limit yields a slice of exactly
one article. -/
theorem analyze_limit_floor (articles : List Article) (l : ℤ) (h : articles ≠ []) :
    1 ≤ (articlesToAnalyze articles (some l)).length ∧
    (l ≤ 0 → (articlesToAnalyze articles (some l)).length = 1) := by
  have hn : 0 < articles.length := List.length_pos.mpr h
  simp only [articlesToAnalyze, sliceLimit, effectiveLimitOf, Option.getD_some,
    List.length_take]
  omega

/-- Witness for `analyze_limit_floor`: one article, analyze limit 0. -/
theorem analyze_limit_floor_witness :
    1 ≤ (articlesToAnalyze [mkArticle "a1"] (some 0)).length ∧
    ((0:ℤ) ≤ 0 → (articlesToAnalyze [mkArticle "a1"] (some 0)).length = 1) :=
  analyze_limit_floor [mkArticle "a1"] 0 (List.cons_ne_nil _ _)

/-- Writing the `page` key twice keeps only the second value: Python dict
assignment, as performed by each iteration of `get_all_articles`. -/
theorem setKey_setKey : ∀ (ps : Params) (k : String) (v w : PyVal),
    setKey (setKey ps k v) k w = setKey ps k w
  | [], k, v, w => by simp [setKey]
  | p :: ps, k, v, w => by
    by_cases h : p.1 = k
    · simp [setKey, h]
    · simp [setKey, h, setKey_setKey ps k v w]

/-- Whenever the `get_all_articles` loop finishes (returns or raises), the
caller-owned `params` dict it leaves behind is the input dict with `page`
overwritten by some page number. -/
theorem getAllArticlesLoop_final_params (respOf : ℕ → PyVal) :
    ∀ (fuel page : ℕ) (params : Params) (acc : Option (List PyVal)) (fp : Params),
      finalParamsOf (getAllArticlesLoop respOf fuel page params acc) = some fp →
      ∃ p : ℕ, fp = setKey params "page" (.num p)
  | 0, page, params, acc, fp, h => by
    simp [getAllArticlesLoop, finalParamsOf] at h
  | fuel + 1, page, params, acc, fp, h => by
    rw [getAllArticlesLoop] at h
    cases henv : envParts (respOf page) with
    | none =>
      simp only [henv, finalParamsOf, Option.some.injEq] at h
      exact ⟨page, h.symm⟩
    | some parts =>
      obtain ⟨rs, cp, pg⟩ := parts
      simp only [henv] at h
      by_cases hstop : pg ≤ cp
      · rw [if_pos hstop] at h
        simp only [finalParamsOf, Option.some.injEq] at h
        exact ⟨page, h.symm⟩
      · rw [if_neg hstop] at h
        obtain ⟨p, hp⟩ := getAllArticlesLoop_final_params respOf fuel (page + 1)
          (setKey params "page" (.num page)) _ fp h
        exact ⟨p, by rw [hp, setKey_setKey]⟩

/-- C6 counterexample: a one-page run of `get_all_articles` leaves the
caller-owned params dict with a new `page` entry — the mapping observed
after the call differs from the mapping passed in. -/
theorem get_all_articles_mutates_params :
    finalParamsOf (getAllArticles onePageResp [("q", PyVal.str "news")] 1)
      = some [("q", PyVal.str "news"), ("page", PyVal.num 1)] ∧
    ([("q", PyVal.str "news"), ("page", PyVal.num 1)] : Params)
      ≠ [("q", PyVal.str "news")] := by
  refine ⟨rfl, fun h => ?_⟩
  exact absurd (congrArg List.length h) (by decide)

/-- C6 amended: `get_all_articles` does mutate the caller-owned mapping, but
only at the `page` key: after the loop finishes (by return or by raised
exception) the mapping equals the input mapping with `page` set to the last
requested page number; `_request` itself works on a private copy and adds
nothing else. -/
theorem get_all_articles_mutates_only_page (respOf : ℕ → PyVal) (params : Params)
    (fuel : ℕ) (fp : Params)
    (h : finalParamsOf (getAllArticles respOf params fuel) = some fp) :
    ∃ p : ℕ, fp = setKey params "page" (.num p) :=
  getAllArticlesLoop_final_params respOf fuel 1 params Option.none fp h

/-- Witness for `get_all_articles_mutates_only_page` on a one-page run. -/
theorem get_all_articles_mutates_only_page_witness :
    ∃ p : ℕ, [("q", PyVal.str "news"), ("page", PyVal.num 1)]
      = setKey [("q", PyVal.str "news")] "page" (.num p) :=
  get_all_articles_mutates_only_page onePageResp [("q", PyVal.str "news")] 1
    [("q", PyVal.str "news"), ("page", PyVal.num 1)] rfl

/-- On the malformed envelope that always reports `currentPage = 0 < 1 =
pages` with an empty results list, the `get_all_articles` loop never exits,
whatever the fuel, start page, params or accumulator. -/
theorem emptyStuckResp_never_stops :
    ∀ (fuel page : ℕ) (params : Params) (acc : Option (List PyVal)),
      getAllArticlesLoop emptyStuckResp fuel page params acc = LoopResult.outOfFuel
  | 0, _, _, _ => rfl
  | fuel + 1, page, params, acc => by
    rw [getAllArticlesLoop]
    have henv : envParts (emptyStuckResp page) = some ([], 0, 1) := rfl
    simp only [henv]
    rw [if_neg (by norm_num)]
    exact emptyStuckResp_never_stops fuel (page + 1) _ _

/-- C7 counterexample: `get_all_articles` has no defensive stop on an empty
results page — against an envelope that always reports
`currentPage = 0 < 1 = pages` with zero results, the loop never terminates
(it consumes any amount of fuel), refuting termination for every envelope
sequence. -/
theorem pagination_no_defensive_stop :
    ¬ ∃ fuel : ℕ, getAllArticles emptyStuckResp [] fuel ≠ LoopResult.outOfFuel := by
  rintro ⟨fuel, hne⟩
  exact hne (emptyStuckResp_never_stops fuel 1 [] Option.none)

/-- If some page within the fuel bound reports `currentPage ≥ pages` and all
envelopes are well-formed, the `get_all_articles` loop halts. -/
theorem loop_halts_of_stop_page (respOf : ℕ → PyVal)
    (hwf : ∀ q, envParts (respOf q) ≠ Option.none) :
    ∀ (fuel k start : ℕ) (params : Params) (acc : Option (List PyVal)),
      k < fuel → stopsAt (respOf (start + k)) = true →
      getAllArticlesLoop respOf fuel start params acc ≠ LoopResult.outOfFuel
  | 0, k, _, _, _, hk, _ => absurd hk (Nat.not_lt_zero k)
  | fuel + 1, k, start, params, acc, hk, hstop => by
    rw [getAllArticlesLoop]
    cases henv : envParts (respOf start) with
    | none => exact absurd henv (hwf start)
    | some parts =>
      obtain ⟨rs, cp, pg⟩ := parts
      simp only [henv]
      by_cases hc : pg ≤ cp
      · rw [if_pos hc]
        exact fun hcontra => LoopResult.noConfusion hcontra
      · rw [if_neg hc]
        cases k with
        | zero =>
          rw [Nat.add_zero] at hstop
          simp only [stopsAt, henv, decide_eq_true_eq] at hstop
          exact absurd hstop hc
        | succ k2 =>
          exact loop_halts_of_stop_page respOf hwf fuel k2 (start + 1) _ _
            (Nat.lt_of_succ_lt_succ hk)
            (by rw [show start + 1 + k2 = start + (k2 + 1) from by omega]; exact hstop)

/-- C7 amended: the walker stops only when a page reports
`currentPage ≥ pages` — there is no zero-results defensive stop (see the
counterexample) — and with well-formed envelopes it does terminate as soon
as some page `p ≥ 1` within the fuel bound reports `currentPage ≥ pages`. -/
theorem pagination_terminates_on_stop_page (respOf : ℕ → PyVal) (params : Params)
    (p fuel : ℕ) (hp : 1 ≤ p) (hfuel : p ≤ fuel)
    (hwf : ∀ q, envParts (respOf q) ≠ Option.none)
    (hstop : stopsAt (respOf p) = true) :
    getAllArticles respOf params fuel ≠ LoopResult.outOfFuel := by
  have hk : p - 1 < fuel := by omega
  have hs : stopsAt (respOf (1 + (p - 1))) = true := by
    rw [show 1 + (p - 1) = p from by omega]
    exact hstop
  exact loop_halts_of_stop_page respOf hwf fuel (p - 1) 1 params Option.none hk hs

/-- Witness for `pagination_terminates_on_stop_page` on the one-page
envelope. -/
theorem pagination_terminates_on_stop_page_witness :
    getAllArticles onePageResp [] 1 ≠ LoopResult.outOfFuel :=
  pagination_terminates_on_stop_page onePageResp [] 1 1 (le_refl 1) (le_refl 1)
    (fun _ h => Option.noConfusion h) rfl

/-- C8 counterexample: parsing a response that lacks `confidence` and holds
one entity object missing `text` succeeds with `confidence = 0`, but the
malformed entity is not skipped — it is included with `text` defaulted to
the empty string — so `key_entities` does not consist of the well-formed
entities alone. -/
theorem malformed_entity_included :
    (parseResponse "article-1" malformedEntityResponse).map
        (fun r => (r.confidence, r.key_entities))
      = some (0, [⟨"Alice", "PERSON", 1⟩, ⟨"", "ORG", 1⟩]) ∧
    (parseResponse "article-1" malformedEntityResponse).map (fun r => r.key_entities)
      ≠ some [⟨"Alice", "PERSON", 1⟩] := by
  refine ⟨rfl, fun h => ?_⟩
  have h2 := Option.some.inj h
  exact absurd (congrArg List.length h2) (by decide)

/-- C8 amended: a response missing `confidence` parses (when it parses at
all) to `confidence = 0`; an entity object missing `text` is not skipped
but included with `text` defaulted to the empty string (and `type`
defaulted to `UNKNOWN` when missing); an entity is skipped only when its
construction raises — when it is not a dict, or its `salience` cannot be
converted to float. -/
theorem defensive_parse_defaults :
    (∀ (aid : String) (data : List (String × PyVal)) (r : ArticleAnalysis),
      List.find? (fun p => p.1 == "confidence") data = Option.none →
      parseResponse aid data = some r → r.confidence = 0) ∧
    (∀ (kvs : List (String × PyVal)) (q : ℚ),
      List.find? (fun p => p.1 == "text") kvs = Option.none →
      lookupD kvs "salience" (.num 0) = .num q →
      parseEntity (.dict kvs)
        = some { text := "", type := pyStr (lookupD kvs "type" (.str "UNKNOWN")),
                 salience := q }) ∧
    (∀ s : String, parseEntity (.str s) = Option.none) ∧
    parseEntity (.dict [("text", .str "x"), ("salience", .str "bad")]) = Option.none := by
  refine ⟨?_, ?_, fun s => rfl, rfl⟩
  · intro aid data r hfind hparse
    have hconf : lookupD data "confidence" (.num 0) = .num 0 := by
      rw [lookupD, hfind]
    simp only [parseResponse, hconf, Option.bind_eq_some, Option.some.injEq,
      bind, pyFloat] at hparse
    obtain ⟨s, hs, t, ht, e, he, c, hc, hrec⟩ := hparse
    rw [← hrec]
    exact hc.symm
  · intro kvs q hfind hsal
    have htext : lookupD kvs "text" (.str "") = .str "" := by
      rw [lookupD, hfind]
    simp only [parseEntity, hsal, htext, pyFloat, pyStr]

/-- Witness for `defensive_parse_defaults` on the concrete malformed
response. -/
theorem defensive_parse_defaults_witness :
    ({ article_id := "article-1", sentiment := 1, summary := ("ok").trim,
       key_entities := [⟨"Alice", "PERSON", 1⟩, ⟨"", "ORG", 1⟩], topics := ["t"],
       confidence := 0,
       raw_llm_response := .dict malformedEntityResponse } : ArticleAnalysis).confidence
      = 0 :=
  defensive_parse_defaults.1 "article-1" malformedEntityResponse _ rfl rfl

/-- `_parse_response` always stamps the analysis with the article id it was
given: the `article_id` field of the returned record is the `article_id`
argument. -/
theorem parseResponse_article_id (aid : String) (data : List (String × PyVal))
    (r : ArticleAnalysis) (h : parseResponse aid data = some r) : r.article_id = aid := by
  simp only [parseResponse, Option.bind_eq_some, Option.some.injEq, bind] at h
  obtain ⟨s, hs, t, ht, e, he, c, hc, hrec⟩ := h
  rw [← hrec]

/-- `GeminiLLMClient.analyze_article` (and `OpenAILLMClient.analyze_article`)
return analyses whose `article_id` is the id of the analyzed article, since
they call `_parse_response(article.id, raw)`. -/
theorem analyzeArticleWith_id (llmRaw : Article → ℕ → Except String (List (String × PyVal)))
    (a : Article) (k : ℕ) (x : ArticleAnalysis)
    (h : analyzeArticleWith llmRaw a k = .ok x) : x.article_id = a.id := by
  rw [analyzeArticleWith] at h
  cases hr : llmRaw a k with
  | error e =>
    simp only [hr] at h
    exact Except.noConfusion h
  | ok data =>
    simp only [hr] at h
    cases hp : parseResponse a.id data with
    | none =>
      simp only [hp] at h
      exact Except.noConfusion h
    | some r =>
      simp only [hp, Except.ok.injEq] at h
      rw [← h]
      exact parseResponse_article_id a.id data r hp

/-- With at least one attempt available, the retry loop of
`analyze_articles` always produces an outcome for the article. -/
theorem runAttempts_isSome (call : ℕ → Except String ArticleAnalysis) :
    ∀ l : List ℕ, l ≠ [] → (runAttempts call l).isSome = true
  | [], h => absurd rfl h
  | [k], _ => by simp [runAttempts]
  | k :: k2 :: rest, _ => by
    rw [runAttempts]
    cases hc : call k with
    | ok x => simp
    | error e => exact runAttempts_isSome call (k2 :: rest) (by simp)

/-- A success produced by the retry loop comes from a successful call on
one of the attempted attempt numbers. -/
theorem runAttempts_ok_mem (call : ℕ → Except String ArticleAnalysis) :
    ∀ (l : List ℕ) (x : ArticleAnalysis),
      runAttempts call l = some (Except.ok x) → ∃ k ∈ l, call k = Except.ok x
  | [], x, h => by simp [runAttempts] at h
  | [k], x, h => by
    simp only [runAttempts, Option.some.injEq] at h
    exact ⟨k, by simp, h⟩
  | k :: k2 :: rest, x, h => by
    rw [runAttempts] at h
    cases hc : call k with
    | ok y =>
      rw [hc] at h
      simp only [Option.some.injEq, Except.ok.injEq] at h
      exact ⟨k, by simp, by rw [hc, h]⟩
    | error e =>
      rw [hc] at h
      obtain ⟨k3, hk3, hcall⟩ := runAttempts_ok_mem call (k2 :: rest) x h
      exact ⟨k3, List.mem_cons_of_mem k hk3, hcall⟩

/-- Each article contributes exactly one outcome, carrying its own id: the
success-id list and failure-id list of `analyze_articles` together form a
permutation of the input id list, and the output sizes add up. -/
theorem analyzeArticles_perm (llm : Article → ℕ → Except String ArticleAnalysis)
    (r : ℕ) (hr : 1 ≤ r)
    (hid : ∀ a k x, llm a k = Except.ok x → x.article_id = a.id) :
    ∀ articles : List Article,
      ((analyzeArticles llm r articles).1.length + (analyzeArticles llm r articles).2.length
        = articles.length) ∧
      List.Perm ((analyzeArticles llm r articles).1.map ArticleAnalysis.article_id ++
                 (analyzeArticles llm r articles).2.map FailureRecord.article_id)
        (articles.map Article.id)
  | [] => by simp [analyzeArticles]
  | a :: rest => by
    obtain ⟨ihlen, ihperm⟩ := analyzeArticles_perm llm r hr hid rest
    have hne : List.range' 1 r ≠ [] := by
      intro hcon
      have := congrArg List.length hcon
      simp at this
      omega
    rw [analyzeArticles]
    cases hres : runAttempts (llm a) (List.range' 1 r) with
    | none =>
      have := runAttempts_isSome (llm a) (List.range' 1 r) hne
      rw [hres] at this
      exact absurd this (by simp)
    | some res =>
      cases res with
      | ok x =>
        have hx : x.article_id = a.id := by
          obtain ⟨k, _, hcall⟩ := runAttempts_ok_mem (llm a) (List.range' 1 r) x hres
          exact hid a k x hcall
        refine ⟨by simpa using by omega, ?_⟩
        simp only [List.map_cons, List.map, List.cons_append]
        rw [hx]
        exact ihperm.cons a.id
      | error e =>
        refine ⟨by simpa using by omega, ?_⟩
        simp only [List.map_cons, List.map]
        exact List.Perm.trans List.perm_middle (ihperm.cons a.id)

/-- C1: for every article list and retry budget `r ≥ 1`, `analyze_articles`
gives every input article exactly one terminal outcome: the success and
failure lists have total length `n`; an id appears on one of the two sides
exactly when it is an input article id; and when the input ids are unique
no id appears on both sides.  (The hypothesis `hid` — a successful
`analyze_article` call returns an analysis stamped with the id of that
article —
holds for both concrete LLM clients, see `analyzeArticleWith_id`.) -/
theorem analyze_articles_partition (llm : Article → ℕ → Except String ArticleAnalysis)
    (r : ℕ) (articles : List Article) (hr : 1 ≤ r)
    (hid : ∀ a k x, llm a k = Except.ok x → x.article_id = a.id) :
    ((analyzeArticles llm r articles).1.length + (analyzeArticles llm r articles).2.length
      = articles.length) ∧
    (∀ i, (i ∈ (analyzeArticles llm r articles).1.map ArticleAnalysis.article_id ∨
           i ∈ (analyzeArticles llm r articles).2.map FailureRecord.article_id)
          ↔ i ∈ articles.map Article.id) ∧
    ((articles.map Article.id).Nodup →
      ∀ i, i ∈ (analyzeArticles llm r articles).1.map ArticleAnalysis.article_id →
        i ∉ (analyzeArticles llm r articles).2.map FailureRecord.article_id) := by
  obtain ⟨hlen, hperm⟩ := analyzeArticles_perm llm r hr hid articles
  refine ⟨hlen, fun i => ?_, fun hnd i his hif => ?_⟩
  · rw [← hperm.mem_iff, List.mem_append]
  · have hnodup := (hperm.nodup_iff).mpr hnd
    rw [List.nodup_append] at hnodup
    exact hnodup.2.2 his hif

/-- Witness for `analyze_articles_partition`: two articles, two attempts,
the second article failing every attempt under `stubLLM`. -/
theorem analyze_articles_partition_witness :
    ((analyzeArticles stubLLM 2 demoArticles).1.length
       + (analyzeArticles stubLLM 2 demoArticles).2.length = demoArticles.length) ∧
    (∀ i, (i ∈ (analyzeArticles stubLLM 2 demoArticles).1.map ArticleAnalysis.article_id ∨
           i ∈ (analyzeArticles stubLLM 2 demoArticles).2.map FailureRecord.article_id)
          ↔ i ∈ demoArticles.map Article.id) ∧
    ((demoArticles.map Article.id).Nodup →
      ∀ i, i ∈ (analyzeArticles stubLLM 2 demoArticles).1.map ArticleAnalysis.article_id →
        i ∉ (analyzeArticles stubLLM 2 demoArticles).2.map FailureRecord.article_id) :=
  analyze_articles_partition stubLLM 2 demoArticles (by norm_num)
    (by
      intro a k x h
      simp only [stubLLM] at h
      by_cases hcase : a.id = "a2"
      · rw [if_pos hcase] at h
        exact Except.noConfusion h
      · rw [if_neg hcase] at h
        rw [← Except.ok.inj h]
        rfl)

/-- Witness for `exhaustion_reflects_last_cause` on a mixed sequence — a
timeout, then a connection error, then a 500, then a 429 on the last
attempt: the result reflects the 429, the last observed cause. -/
theorem exhaustion_reflects_last_cause_witness :
    request "https://content.guardianapis.com/search" mixedOutcomes
      = lastAttemptResult "https://content.guardianapis.com/search"
          (mixedOutcomes requestMaxRetries) ∧
    (∀ emsg, lastAttemptResult "https://content.guardianapis.com/search" (.timeout emsg)
      = .raised (.timeoutError ("Request timeout error " ++ emsg))) ∧
    (∀ emsg, lastAttemptResult "https://content.guardianapis.com/search" (.netError emsg)
      = .raised (.connectionError ("Network error while calling "
          ++ "https://content.guardianapis.com/search" ++ ": " ++ emsg))) ∧
    (∀ ra, lastAttemptResult "https://content.guardianapis.com/search" (.response 429 ra)
      = .raised (.clientError "Rate limit exceeded: 429")) ∧
    (∀ ra, lastAttemptResult "https://content.guardianapis.com/search" (.response 503 ra)
      = .raised (.serverError "Server error: 503")) ∧
    [exceptionClass (.timeoutError "m"), exceptionClass (.connectionError "m"),
     exceptionClass (.serverError "m"), exceptionClass (.clientError "m")].Nodup ∧
    ("Rate limit exceeded: 429" : String) ≠ "Client error: 400" :=
  exhaustion_reflects_last_cause "https://content.guardianapis.com/search" mixedOutcomes
    (by
      intro i h1 h4
      simp only [requestMaxRetries] at h4
      interval_cases i <;> rfl)
